import Mathlib

/-
Shallow embedding of the disk-streaming engine in `src/streamer.rs` of
asdf-rust: the `FileStreamer` facade (seek handshake and `get_data`
crossfade state machine) and the reader-thread loop.

Modelling choices:
* `f32` samples are modelled as rationals (`ℚ`); the fade arithmetic
  `s * r as f32 / blocksize as f32` becomes exact rational arithmetic.
* The rtrb block queue stores its committed chunks in a shared list
  (`buffer`); the travelling consumer endpoint is the boolean
  `dataConsumer` on each side.  The two single-slot SPSC handoff channels
  (`readyChan`, `seekChan`) are `Option` slots carrying the frame tag of
  the message (the consumer endpoint travels with the message).
* An `unwrap` on a channel `push` that finds the slot full is modelled by
  a `panicked` flag in the result.
* File I/O (`file.seek`, `fill_channels`) is external to `streamer.rs`;
  the reader model records the exact sequence of file operations the loop
  issues as a `FileOp` trace, and pushes the zero-initialized chunk that
  the queue implementation guarantees.
-/

namespace Streamer

/-- `StreamingError` from streamer.rs (lines 247-255). -/
inductive StreamingError where
  | emptyBuffer
  | incompleteSeek
  | seekWhileRolling
  deriving DecidableEq, Repr

/-- `State` from streamer.rs (lines 13-16): playback position. -/
inductive StState where
  | playing (frame : ℕ)
  | seeking (frame : ℕ)
  deriving DecidableEq, Repr

instance : DecidableEq (Except StreamingError Unit) :=
  fun a b =>
    match a, b with
    | .ok (), .ok () => isTrue rfl
    | .error e, .error e2 =>
      match decEq e e2 with
      | isTrue h => isTrue (h ▸ rfl)
      | isFalse h => isFalse (fun hh => h (by cases hh; rfl))
    | .ok _, .error _ => isFalse (fun h => Except.noConfusion h)
    | .error _, .ok _ => isFalse (fun h => Except.noConfusion h)

/-- One block-queue chunk: `channels` slices of `blocksize` samples. -/
abbrev Chunk := List (List ℚ)

/-- `PlaylistEntry` (from parser.rs, as used by streamer.rs):
file index, start frame and duration on the global timeline. -/
structure PlaylistEntry where
  idx : ℕ
  begin : ℕ
  duration : ℕ
  deriving DecidableEq, Repr

/-- `fill_with_zeros` (streamer.rs lines 237-245): overwrite every sample
of every per-channel slice with zero, keeping the shapes. -/
def fillWithZeros (target : List (List ℚ)) : List (List ℚ) :=
  target.map (fun ch => ch.map (fun _ => (0 : ℚ)))

/-- Fade-in inner loop (streamer.rs lines 163-166): the infinite ramp
`1..` zipped against source and target; the zip stops at the shorter of
source and target, leaving any remaining target samples untouched.
`r` is the current ramp value. -/
def fadeInFrom (B : ℕ) : ℕ → List ℚ → List ℚ → List ℚ
  | _, [], t => t
  | _, _ :: _, [] => []
  | r, x :: xs, _ :: ts => (x * r / B) :: fadeInFrom B (r + 1) xs ts

/-- Fade In (streamer.rs lines 161-166): ramp starts at 1. -/
def fadeIn (B : ℕ) (src tgt : List ℚ) : List ℚ :=
  fadeInFrom B 1 src tgt

/-- Fade-out inner loop (streamer.rs lines 167-172): the ramp
`(1..=blocksize).rev()` zipped against source and target; stops at the
shortest of ramp, source and target. `r` is the number of ramp values
left; the current ramp value is `r` itself. -/
def fadeOutFrom (B : ℕ) : ℕ → List ℚ → List ℚ → List ℚ
  | 0, _, ts => ts
  | _ + 1, [], ts => ts
  | _ + 1, _ :: _, [] => []
  | r + 1, x :: xs, _ :: ts => (x * (r + 1) / B) :: fadeOutFrom B r xs ts

/-- Fade Out (streamer.rs lines 167-172): ramp runs from `B` down to 1. -/
def fadeOut (B : ℕ) (src tgt : List ℚ) : List ℚ :=
  fadeOutFrom B B src tgt

/-- `target.copy_from_slice(source)` (streamer.rs line 175).  Rust panics
when the lengths differ; the model returns the target unchanged in that
(never exercised) case. -/
def copySlice (src tgt : List ℚ) : List ℚ :=
  if src.length = tgt.length then src else tgt

/-- The per-channel body of the `for (source, target)` loop of `get_data`
(streamer.rs lines 160-177): select fade-in, fade-out or straight copy. -/
def channelFade (B : ℕ) (rolling previously : Bool) (src tgt : List ℚ) : List ℚ :=
  if rolling && !previously then fadeIn B src tgt
  else if !rolling && previously then fadeOut B src tgt
  else copySlice src tgt

/-- `source.iter().zip(target)` over the channel lists: extra target
channels are left untouched, extra source channels are dropped. -/
def zipChannels (f : List ℚ → List ℚ → List ℚ) : List (List ℚ) → List (List ℚ) → List (List ℚ)
  | src :: ss, tgt :: ts => f src tgt :: zipChannels f ss ts
  | _, ts => ts

/-- The facade state of `FileStreamer` (streamer.rs lines 20-31) together
with the state of the shared block queue and the two handoff channels.
`buffer` lists the committed, not yet popped chunks (front = oldest);
`dataConsumer` says whether the facade holds the queue's consumer
endpoint; `readyChan`/`seekChan` hold the in-flight message's frame tag
(the consumer endpoint travels inside the message). -/
structure FileStreamer where
  buffer : List Chunk
  dataConsumer : Bool
  readyChan : Option ℕ
  seekChan : Option ℕ
  channels : ℕ
  blocksize : ℕ
  previouslyRolling : Bool
  state : StState
  deriving DecidableEq, Repr

/-- The facade as returned by `FileStreamer::new` (streamer.rs lines
129-140): no consumer, `previously_rolling = false`, state `Seeking(0)`,
all channels and the queue empty (the reader thread holds the consumer). -/
def FileStreamer.new (blocksize channels : ℕ) : FileStreamer :=
  { buffer := []
    dataConsumer := false
    readyChan := none
    seekChan := none
    channels := channels
    blocksize := blocksize
    previouslyRolling := false
    state := .seeking 0 }

/-- Result of `FileStreamer::seek`: returned boolean, updated facade, and
whether an `unwrap` panicked (push onto an occupied single-slot channel). -/
structure SeekResult where
  ret : Bool
  fs : FileStreamer
  panicked : Bool
  deriving DecidableEq, Repr

/-- `if let Some(queue) = self.data_consumer.take() {
self.seek_producer.push((frame, queue)).unwrap() }` followed by
`return false` (streamer.rs lines 221-224). -/
def pushSeekRequest (s : FileStreamer) (frame : ℕ) : SeekResult :=
  if s.dataConsumer then
    match s.seekChan with
    | none => ⟨false, { s with dataConsumer := false, seekChan := some frame }, false⟩
    | some _ => ⟨false, s, true⟩
  else ⟨false, s, false⟩

/-- `FileStreamer::seek` after the state has been set to `Seeking(frame)`
(streamer.rs lines 207-224): defer while fading out, otherwise try to
adopt a pre-buffered consumer from the ready channel, and recycle any
held consumer through the seek-request channel. -/
def seekSlow (s : FileStreamer) (frame : ℕ) : SeekResult :=
  if s.previouslyRolling then ⟨false, s, false⟩
  else if s.dataConsumer then pushSeekRequest s frame
  else
    match s.readyChan with
    | some readyFrame =>
      let s1 := { s with readyChan := none, dataConsumer := true }
      if readyFrame = frame then ⟨true, { s1 with state := .playing frame }, false⟩
      else pushSeekRequest s1 frame
    | none => pushSeekRequest s frame

/-- `FileStreamer::seek` (streamer.rs lines 199-225). -/
def FileStreamer.seek (s : FileStreamer) (frame : ℕ) : SeekResult :=
  match s.state with
  | .playing f =>
    if f = frame then ⟨true, s, false⟩
    else seekSlow { s with state := .seeking frame } frame
  | .seeking _ => seekSlow { s with state := .seeking frame } frame

/-- Result of `FileStreamer::get_data`: the `Result` value, the output
slices, the updated facade, and the panic flag of the internal seek. -/
structure GetDataResult where
  res : Except StreamingError Unit
  target : List (List ℚ)
  fs : FileStreamer
  panicked : Bool
  deriving DecidableEq, Repr

/-- Tail of `get_data` shared by the silence branch and the successful
pop branch (streamer.rs lines 189-196): record `previously_rolling`,
detect `SeekWhileRolling`, and issue the deferred seek. -/
def finishGetData (s : FileStreamer) (out : List (List ℚ)) (rolling : Bool) : GetDataResult :=
  let s := { s with previouslyRolling := rolling }
  match s.state with
  | .seeking frame =>
    if rolling then ⟨.error .seekWhileRolling, out, s, false⟩
    else
      let r := s.seek frame
      ⟨.ok (), out, r.fs, r.panicked⟩
  | .playing _ => ⟨.ok (), out, s, false⟩

/-- `FileStreamer::get_data` (streamer.rs lines 147-197). -/
def FileStreamer.getData (s : FileStreamer) (target : List (List ℚ)) (rolling : Bool) :
    GetDataResult :=
  let previously := s.previouslyRolling
  if !rolling && !previously then
    finishGetData s (fillWithZeros target) rolling
  else if s.dataConsumer then
    match s.buffer with
    | chunk :: rest =>
      let out := zipChannels (channelFade s.blocksize rolling previously) chunk target
      let s1 := { s with buffer := rest }
      let s2 :=
        match s1.state with
        | .playing f => { s1 with state := .playing (f + s1.blocksize) }
        | .seeking _ => s1
      finishGetData s2 out rolling
    | [] => ⟨.error .emptyBuffer, fillWithZeros target, s, false⟩
  else ⟨.error .incompleteSeek, fillWithZeros target, s, false⟩

/-! ### Reader thread (streamer.rs lines 71-128) -/

/-- A file operation issued by the reader loop to the external audio-file
collaborator: `seek idx pos` is `file_storage[idx].seek(pos)`, and
`fill idx offset` is `file.fill_channels(channel_map, blocksize, offset,
target)` (streamer.rs lines 99-109). -/
inductive FileOp where
  | seek (idx : ℕ) (pos : ℕ)
  | fill (idx : ℕ) (offset : ℕ)
  deriving DecidableEq, Repr

/-- `ActiveIter` (streamer.rs lines 33-50): the playlist entries active in
the block `[blockStart, blockEnd)`, in playlist order. -/
def activeEntries (blockStart blockEnd : ℕ) (playlist : List PlaylistEntry) :
    List PlaylistEntry :=
  playlist.filter fun e => decide (e.begin < blockEnd ∧ blockStart < e.begin + e.duration)

/-- File operations for one active entry (streamer.rs lines 99-109): an
entry that began strictly before `currentFrame` is a continuation (seek
only on the first block after a seek, then fill at offset 0); an entry
beginning at or after `currentFrame` is sought to its frame 0 and filled
at offset `begin - currentFrame`. -/
def entryOps (currentFrame seekFrame : ℕ) (e : PlaylistEntry) : List FileOp :=
  if e.begin < currentFrame then
    (if currentFrame = seekFrame then [FileOp.seek e.idx (currentFrame - e.begin)] else [])
      ++ [FileOp.fill e.idx 0]
  else
    [FileOp.seek e.idx 0, FileOp.fill e.idx (e.begin - currentFrame)]

/-- All file operations of one fill step (streamer.rs lines 92-110). -/
def blockOps (playlist : List PlaylistEntry) (currentFrame seekFrame B : ℕ) : List FileOp :=
  (activeEntries currentFrame (currentFrame + B) playlist).flatMap
    (entryOps currentFrame seekFrame)

/-- The reader thread's private loop state (streamer.rs lines 72-74):
whether it still holds the queue's consumer endpoint, and the
`current_frame` / `seek_frame` counters. -/
structure ReaderState where
  dataConsumer : Bool
  currentFrame : ℕ
  seekFrame : ℕ
  deriving DecidableEq, Repr

/-- The whole two-thread system: the facade (with the shared queue and
channel slots) and the reader state. -/
structure SysState where
  fs : FileStreamer
  rdr : ReaderState
  deriving DecidableEq, Repr

/-- The system right after `FileStreamer::new`: the reader thread holds
the consumer and starts buffering at frame 0. -/
def SysState.init (blocksize channels : ℕ) : SysState :=
  { fs := FileStreamer.new blocksize channels
    rdr := { dataConsumer := true, currentFrame := 0, seekFrame := 0 } }

/-- Result of one reader-loop iteration: new system state, the file
operations issued, the frame tag sent on the ready channel (if any), and
whether the `unwrap` on the ready-channel push panicked. -/
structure ReaderStepResult where
  sys : SysState
  ops : List FileOp
  sent : Option ℕ
  panicked : Bool
  deriving Repr

/-- One iteration of the reader-thread loop (streamer.rs lines 77-126):
service a pending seek request (drain the received consumer and reset the
frame counters), then, if the queue has room, fill one zero-initialized
chunk through the file operations of `blockOps`, advance `current_frame`,
and hand the consumer over once `buffer_blocks * blocksize` frames of
look-ahead have accumulated; otherwise sleep. -/
def readerStep (playlist : List PlaylistEntry) (bufferBlocks : ℕ) (sys : SysState) :
    ReaderStepResult :=
  let B := sys.fs.blocksize
  let sys :=
    match sys.fs.seekChan with
    | some frame =>
      -- drain the recycled consumer; the reader owns the producer, so the
      -- drain empties the queue completely
      { fs := { sys.fs with seekChan := none, buffer := [] }
        rdr := { dataConsumer := true, currentFrame := frame, seekFrame := frame } }
    | none => sys
  if sys.fs.buffer.length < bufferBlocks then
    let cur := sys.rdr.currentFrame
    let ops := blockOps playlist cur sys.rdr.seekFrame B
    -- chunk slices start out zero-filled (queue guarantee); the external
    -- fill_channels mixing is recorded in `ops`
    let chunk : Chunk := List.replicate sys.fs.channels (List.replicate B (0 : ℚ))
    let sys : SysState :=
      { fs := { sys.fs with buffer := sys.fs.buffer ++ [chunk] }
        rdr := { sys.rdr with currentFrame := cur + B } }
    if bufferBlocks * B ≤ sys.rdr.currentFrame - sys.rdr.seekFrame then
      if sys.rdr.dataConsumer then
        match sys.fs.readyChan with
        | none =>
          ⟨{ fs := { sys.fs with readyChan := some sys.rdr.seekFrame }
             rdr := { sys.rdr with dataConsumer := false } }, ops, some sys.rdr.seekFrame, false⟩
        | some _ => ⟨sys, ops, none, true⟩
      else ⟨sys, ops, none, false⟩
    else ⟨sys, ops, none, false⟩
  else ⟨sys, [], none, false⟩

/-- An externally driven step of the system: a `seek` call, a `get_data`
call, or one reader-loop iteration. -/
inductive SysAction where
  | seek (frame : ℕ)
  | getData (target : List (List ℚ)) (rolling : Bool)
  | reader

/-- Apply one action; the boolean reports whether an `unwrap` on a
channel push panicked during the step. -/
def sysStep (playlist : List PlaylistEntry) (bufferBlocks : ℕ) (sys : SysState) :
    SysAction → SysState × Bool
  | .seek frame =>
    let r := sys.fs.seek frame
    (⟨r.fs, sys.rdr⟩, r.panicked)
  | .getData target rolling =>
    let r := sys.fs.getData target rolling
    (⟨r.fs, sys.rdr⟩, r.panicked)
  | .reader =>
    let r := readerStep playlist bufferBlocks sys
    (r.sys, r.panicked)

/-- System states reachable from construction by any interleaving of
`seek`, `get_data` and reader-loop iterations. -/
inductive Reachable (playlist : List PlaylistEntry) (bufferBlocks blocksize channels : ℕ) :
    SysState → Prop
  | init : Reachable playlist bufferBlocks blocksize channels (SysState.init blocksize channels)
  | step {s : SysState} (a : SysAction) :
      Reachable playlist bufferBlocks blocksize channels s →
      Reachable playlist bufferBlocks blocksize channels (sysStep playlist bufferBlocks s a).1

/-- Number of places currently holding the block queue's consumer
endpoint: the facade, the ready channel, the seek-request channel, and
the reader thread. -/
def tokens (sys : SysState) : ℕ :=
  (if sys.fs.dataConsumer then 1 else 0) + (if sys.fs.readyChan.isSome then 1 else 0)
    + (if sys.fs.seekChan.isSome then 1 else 0) + (if sys.rdr.dataConsumer then 1 else 0)

/-- Consumer-endpoint places on the facade side only. -/
def tokensF (fs : FileStreamer) : ℕ :=
  (if fs.dataConsumer then 1 else 0) + (if fs.readyChan.isSome then 1 else 0)
    + (if fs.seekChan.isSome then 1 else 0)

/-- The crossfade gain at 0-indexed sample `j` for one block of size `B`,
as the spec states it: `(j+1)/B` for fade-in, `(B-j)/B` for fade-out, `1`
for steady rolling. -/
def fadeGain (rolling previously : Bool) (B j : ℕ) : ℚ :=
  if rolling && !previously then (j + 1) / B
  else if !rolling && previously then ((B - j : ℕ) : ℚ) / B
  else 1

/-- A facade state reached after rolling playback with a pending deferred
seek: one chunk of audio data queued, consumer held, `previously_rolling`
set, position `Seeking(5)`. -/
def stateSeekingWithData : FileStreamer :=
  { buffer := [[[1, 1]]]
    dataConsumer := true
    readyChan := none
    seekChan := none
    channels := 1
    blocksize := 2
    previouslyRolling := true
    state := .seeking 5 }

/-- A facade state in steady rolling playback (no pending seek request):
one chunk queued, consumer held, `previously_rolling` set, `Playing(0)`. -/
def statePlayingWithData : FileStreamer :=
  { stateSeekingWithData with state := .playing 0 }

/-- A facade state about to fade in: one chunk `[[3, 5]]` queued, consumer
held, `previously_rolling` clear, position `Playing(0)`. -/
def stateFadeInDemo : FileStreamer :=
  { stateSeekingWithData with
      previouslyRolling := false
      state := .playing 0
      buffer := [[[3, 5]]] }

/-! ### Helper lemmas -/

theorem fillWithZeros_all_zero (t : List (List ℚ)) :
    ∀ ch ∈ fillWithZeros t, ∀ x ∈ ch, x = 0 := by
  intro ch hch x hx
  simp only [fillWithZeros, List.mem_map] at hch
  obtain ⟨a, -, rfl⟩ := hch
  simp only [List.mem_map] at hx
  obtain ⟨b, -, hb⟩ := hx
  exact hb.symm

theorem finishGetData_res (s : FileStreamer) (out : List (List ℚ)) (rolling : Bool) :
    (finishGetData s out rolling).res = .ok ()
      ∨ (finishGetData s out rolling).res = .error .seekWhileRolling := by
  unfold finishGetData
  cases h : s.state
  · simp [h]
  · simp only [h]
    split <;> simp

theorem finishGetData_target (s : FileStreamer) (out : List (List ℚ)) (rolling : Bool) :
    (finishGetData s out rolling).target = out := by
  unfold finishGetData
  cases h : s.state
  · simp [h]
  · simp only [h]
    split <;> simp

theorem zipChannels_congr {f g : List ℚ → List ℚ → List ℚ} (h : ∀ a b, f a b = g a b) :
    ∀ ss ts, zipChannels f ss ts = zipChannels g ss ts := by
  intro ss
  induction ss with
  | nil => intro ts; rfl
  | cons src ss ih =>
    intro ts
    cases ts with
    | nil => rfl
    | cons tgt ts => simp [zipChannels, h, ih]

theorem finishGetData_res_ne (s : FileStreamer) (out : List (List ℚ)) (rolling : Bool) :
    (finishGetData s out rolling).res ≠ .error .emptyBuffer
      ∧ (finishGetData s out rolling).res ≠ .error .incompleteSeek := by
  rcases finishGetData_res s out rolling with hk | hk <;> rw [hk] <;>
    exact ⟨fun h => by simp at h, fun h => by simp at h⟩

/-! ### Claims -/

/-- C6: calling `seek(f)` while the position is already `Playing(f)`
returns `true` immediately and leaves the facade completely unchanged:
same position, same held consumer, and nothing pushed to or popped from
the ready or seek-request channels. -/
theorem seek_playing_noop (s : FileStreamer) (f : ℕ) (h : s.state = .playing f) :
    s.seek f = ⟨true, s, false⟩ := by
  unfold FileStreamer.seek
  rw [h]
  simp

theorem seek_playing_noop_witness :
    ({ FileStreamer.new 4 2 with state := .playing 3 } : FileStreamer).seek 3
      = ⟨true, { FileStreamer.new 4 2 with state := .playing 3 }, false⟩ :=
  seek_playing_noop { FileStreamer.new 4 2 with state := .playing 3 } 3 rfl

/-- C10: whenever `get_data` returns `EmptyBuffer` or `IncompleteSeek`,
the facade is left completely unchanged (in particular
`previously_rolling` keeps its prior value, the position keeps its
variant and frame, and no deferred seek is issued) and the target is
exactly the zero-filled target. -/
theorem getData_recoverable_error_unchanged (s : FileStreamer) (target : List (List ℚ))
    (rolling : Bool)
    (h : (s.getData target rolling).res = .error .emptyBuffer
        ∨ (s.getData target rolling).res = .error .incompleteSeek) :
    (s.getData target rolling).fs = s
      ∧ (s.getData target rolling).target = fillWithZeros target
      ∧ (s.getData target rolling).panicked = false := by
  by_cases h1 : (!rolling && !s.previouslyRolling) = true
  · exfalso
    simp only [FileStreamer.getData, h1, if_true] at h
    rcases h with h | h
    exacts [(finishGetData_res_ne _ _ _).1 h, (finishGetData_res_ne _ _ _).2 h]
  · by_cases h2 : s.dataConsumer = true
    · cases hbuf : s.buffer with
      | nil => simp [FileStreamer.getData, h1, h2, hbuf]
      | cons chunk rest =>
        exfalso
        simp only [FileStreamer.getData, h1, h2, hbuf, Bool.false_eq_true, if_false,
          if_true] at h
        rcases h with h | h
        exacts [(finishGetData_res_ne _ _ _).1 h, (finishGetData_res_ne _ _ _).2 h]
    · simp [FileStreamer.getData, h1, h2]

theorem getData_recoverable_error_unchanged_witness :
    ((FileStreamer.new 4 1).getData [[5, 5, 5, 5]] true).fs = FileStreamer.new 4 1
      ∧ ((FileStreamer.new 4 1).getData [[5, 5, 5, 5]] true).target
          = fillWithZeros [[5, 5, 5, 5]]
      ∧ ((FileStreamer.new 4 1).getData [[5, 5, 5, 5]] true).panicked = false :=
  getData_recoverable_error_unchanged _ _ _ (Or.inr (by decide))

/-- C2 counterexample: on a freshly constructed facade, before any seek,
`get_data` with `rolling = false` returns `Ok(())`, not the
`IncompleteSeek` error the claim requires for every rolling flag. -/
theorem getData_fresh_not_rolling_returns_ok :
    ((FileStreamer.new 4 1).getData [[0, 0, 0, 0]] false).res = .ok ()
      ∧ ((FileStreamer.new 4 1).getData [[0, 0, 0, 0]] false).res
          ≠ .error .incompleteSeek := by
  decide

/-- C2 (amended): `get_data` called with `rolling = true` on a freshly
constructed facade (no consumer ever adopted) returns `IncompleteSeek`
and every sample of every target slice is zero on return; with
`rolling = false` the call instead succeeds (still with all-zero output). -/
theorem getData_fresh_rolling_incompleteSeek (B C : ℕ) (target : List (List ℚ)) :
    ((FileStreamer.new B C).getData target true).res = .error .incompleteSeek
      ∧ ((FileStreamer.new B C).getData target true).target = fillWithZeros target
      ∧ ∀ ch ∈ ((FileStreamer.new B C).getData target true).target, ∀ x ∈ ch, x = 0 := by
  refine ⟨rfl, rfl, ?_⟩
  have h : ((FileStreamer.new B C).getData target true).target = fillWithZeros target := rfl
  rw [h]
  exact fillWithZeros_all_zero target

theorem getData_fresh_rolling_incompleteSeek_witness :
    ((FileStreamer.new 4 1).getData [[1, 2, 3, 4]] true).res = .error .incompleteSeek :=
  (getData_fresh_rolling_incompleteSeek 4 1 [[1, 2, 3, 4]]).1

/-- C5 counterexample: with the position `Seeking(0)` but no consumer held
(the freshly constructed facade), `get_data` with `rolling = true` returns
`IncompleteSeek`, not the `SeekWhileRolling` the claim requires for every
state with a `Seeking` position. -/
theorem getData_seeking_rolling_no_consumer_incompleteSeek :
    (FileStreamer.new 4 1).state = .seeking 0
      ∧ ((FileStreamer.new 4 1).getData [[0, 0, 0, 0]] true).res = .error .incompleteSeek
      ∧ ((FileStreamer.new 4 1).getData [[0, 0, 0, 0]] true).res
          ≠ .error .seekWhileRolling := by
  decide

/-- C5 (amended): whenever the position is `Seeking(f)`, a consumer is
held and a chunk is successfully popped, `get_data` with `rolling = true`
returns `SeekWhileRolling` (with no consumer or an empty queue, the
earlier `IncompleteSeek` / `EmptyBuffer` errors take precedence). -/
theorem getData_seeking_rolling_pop_seekWhileRolling (s : FileStreamer) (f : ℕ)
    (target : List (List ℚ)) (chunk : Chunk) (rest : List Chunk)
    (hst : s.state = .seeking f) (hdc : s.dataConsumer = true)
    (hbuf : s.buffer = chunk :: rest) :
    (s.getData target true).res = .error .seekWhileRolling := by
  simp [FileStreamer.getData, hdc, hbuf, finishGetData, hst]

theorem getData_seeking_rolling_pop_seekWhileRolling_witness :
    (stateSeekingWithData.getData [[0, 0]] true).res = .error .seekWhileRolling :=
  getData_seeking_rolling_pop_seekWhileRolling stateSeekingWithData 5 [[0, 0]]
    [[1, 1]] [] rfl rfl rfl

/-- C1 (code bug): `get_data` can return the `SeekWhileRolling` error
while `target` holds the popped chunk's (non-zero) audio samples: at a
state reached after rolling playback with a deferred seek pending, the
call pops the chunk, copies it into `target`, and only then returns the
error — contradicting the claim and the code's own doc comment
("`target` will be filled with zeros in case of an error",
streamer.rs line 147). -/
theorem getData_seekWhileRolling_leaves_audio_in_target :
    (stateSeekingWithData.getData [[0, 0]] true).res = .error .seekWhileRolling
      ∧ (stateSeekingWithData.getData [[0, 0]] true).target = [[1, 1]]
      ∧ (stateSeekingWithData.getData [[0, 0]] true).target
          ≠ fillWithZeros [[0, 0]] := by
  decide

/-- C4 counterexample: in steady rolling playback in state `Playing(0)`
with no pending seek request, a single `get_data(rolling = false)` call
pops and fades out the queued block but does **not** schedule any
re-seek: the position simply advances to `Playing(2)`, nothing is pushed
onto the seek-request channel, and the consumer is kept. -/
theorem getData_fadeout_from_playing_no_reseek :
    (statePlayingWithData.getData [[0, 0]] false).res = .ok ()
      ∧ (statePlayingWithData.getData [[0, 0]] false).fs.state = .playing 2
      ∧ (statePlayingWithData.getData [[0, 0]] false).fs.seekChan = none
      ∧ (statePlayingWithData.getData [[0, 0]] false).fs.dataConsumer = true := by
  decide

/-- C4 (amended): after rolling playback during which a seek to frame `g`
was requested and deferred (position `Seeking(g)`, `previously_rolling`
set), a single `get_data(rolling = false)` call pops the next queued
block, writes it to target weighted by the fade-out ramp, and internally
invokes `seek` toward the requested frame `g`: the held consumer is
recycled through the seek-request channel tagged with `g`. -/
theorem getData_fadeout_issues_deferred_seek (s : FileStreamer) (g : ℕ)
    (target : List (List ℚ)) (chunk : Chunk) (rest : List Chunk)
    (hst : s.state = .seeking g) (hprev : s.previouslyRolling = true)
    (hdc : s.dataConsumer = true) (hbuf : s.buffer = chunk :: rest)
    (hsc : s.seekChan = none) :
    (s.getData target false).res = .ok ()
      ∧ (s.getData target false).target = zipChannels (fadeOut s.blocksize) chunk target
      ∧ (s.getData target false).fs.seekChan = some g
      ∧ (s.getData target false).fs.dataConsumer = false
      ∧ (s.getData target false).fs.state = .seeking g
      ∧ (s.getData target false).panicked = false := by
  have hcf : zipChannels (channelFade s.blocksize false true) chunk target
      = zipChannels (fadeOut s.blocksize) chunk target :=
    zipChannels_congr (fun a b => by simp [channelFade]) chunk target
  simp [FileStreamer.getData, hprev, hdc, hbuf, hst, finishGetData, FileStreamer.seek,
    seekSlow, pushSeekRequest, hsc, hcf]

theorem getData_fadeout_issues_deferred_seek_witness :
    (stateSeekingWithData.getData [[0, 0]] false).res = .ok ()
      ∧ (stateSeekingWithData.getData [[0, 0]] false).fs.seekChan = some 5 :=
  ⟨(getData_fadeout_issues_deferred_seek stateSeekingWithData 5 [[0, 0]] [[1, 1]] []
      rfl rfl rfl rfl rfl).1,
    (getData_fadeout_issues_deferred_seek stateSeekingWithData 5 [[0, 0]] [[1, 1]] []
      rfl rfl rfl rfl rfl).2.2.1⟩

theorem fadeInFrom_getD (B : ℕ) :
    ∀ (src : List ℚ) (r : ℕ) (tgt : List ℚ) (j : ℕ), j < src.length → j < tgt.length →
      (fadeInFrom B r src tgt).getD j 0 = src.getD j 0 * ((r + j : ℕ) : ℚ) / B := by
  intro src
  induction src with
  | nil => intro r tgt j hj hjt; simp at hj
  | cons x xs ih =>
    intro r tgt j hj hjt
    cases tgt with
    | nil => simp at hjt
    | cons y ys =>
      cases j with
      | zero => simp [fadeInFrom]
      | succ j =>
        simp only [fadeInFrom, List.getD_cons_succ]
        rw [ih (r + 1) ys j (by simpa using hj) (by simpa using hjt)]
        have harith : r + 1 + j = r + (j + 1) := by omega
        rw [harith]

theorem fadeOutFrom_getD (B : ℕ) :
    ∀ (src : List ℚ) (r : ℕ) (tgt : List ℚ) (j : ℕ), j < r → j < src.length →
      j < tgt.length →
      (fadeOutFrom B r src tgt).getD j 0 = src.getD j 0 * ((r - j : ℕ) : ℚ) / B := by
  intro src
  induction src with
  | nil => intro r tgt j hr hj hjt; simp at hj
  | cons x xs ih =>
    intro r tgt j hr hj hjt
    cases r with
    | zero => omega
    | succ r =>
      cases tgt with
      | nil => simp at hjt
      | cons y ys =>
        cases j with
        | zero => simp [fadeOutFrom]
        | succ j =>
          simp only [fadeOutFrom, List.getD_cons_succ]
          rw [ih r ys j (by omega) (by simpa using hj) (by simpa using hjt)]
          have harith : r - j = r + 1 - (j + 1) := by omega
          rw [harith]

theorem zipChannels_getD (f : List ℚ → List ℚ → List ℚ) :
    ∀ (ss ts : List (List ℚ)) (i : ℕ), i < ss.length → i < ts.length →
      (zipChannels f ss ts).getD i [] = f (ss.getD i []) (ts.getD i []) := by
  intro ss
  induction ss with
  | nil => intro ts i hi hit; simp at hi
  | cons src ss ih =>
    intro ts i hi hit
    cases ts with
    | nil => simp at hit
    | cons tgt ts =>
      cases i with
      | zero => simp [zipChannels]
      | succ i =>
        simp only [zipChannels, List.getD_cons_succ]
        exact ih ts i (by simpa using hi) (by simpa using hit)

/-- C3: for blocksize `B ≥ 1`, when `get_data` successfully pops a chunk,
every output sample at channel `i`, position `j` equals the input sample
times the crossfade gain: `(j+1)/B` in the fade-in case
(`rolling && !previously_rolling`), `(B-j)/B` in the fade-out case
(`!rolling && previously_rolling`), and `1` (unchanged) in the steady
rolling case. -/
theorem getData_crossfade_formula (s : FileStreamer) (target : List (List ℚ))
    (rolling : Bool) (chunk : Chunk) (rest : List Chunk)
    (_hB : 1 ≤ s.blocksize) (hdc : s.dataConsumer = true) (hbuf : s.buffer = chunk :: rest)
    (hroll : rolling = true ∨ s.previouslyRolling = true)
    (hsrc : ∀ c ∈ chunk, c.length = s.blocksize)
    (hnum : target.length = chunk.length)
    (htgt : ∀ t ∈ target, t.length = s.blocksize) :
    ∀ i j, i < target.length → j < s.blocksize →
      (((s.getData target rolling).target.getD i []).getD j 0)
        = ((chunk.getD i []).getD j 0)
            * fadeGain rolling s.previouslyRolling s.blocksize j := by
  intro i j hi hj
  have hcond : (!rolling && !s.previouslyRolling) = false := by
    rcases hroll with h | h <;> simp [h]
  have hout : (s.getData target rolling).target
      = zipChannels (channelFade s.blocksize rolling s.previouslyRolling) chunk target := by
    simp [FileStreamer.getData, hcond, hdc, hbuf, finishGetData_target]
  rw [hout]
  have hic : i < chunk.length := hnum ▸ hi
  rw [zipChannels_getD _ chunk target i hic hi]
  have hsrcl : (chunk.getD i []).length = s.blocksize := by
    refine hsrc _ ?_
    rw [List.getD_eq_getElem _ _ hic]
    exact List.getElem_mem hic
  have htgtl : (target.getD i []).length = s.blocksize := by
    refine htgt _ ?_
    rw [List.getD_eq_getElem _ _ hi]
    exact List.getElem_mem hi
  cases hr : rolling <;> cases hp : s.previouslyRolling
  · -- rolling = false, previously = false: excluded by hroll
    exfalso
    rcases hroll with h | h <;> simp_all
  · -- fade out: rolling = false, previously = true
    have hcf : channelFade s.blocksize false true (chunk.getD i []) (target.getD i [])
        = fadeOut s.blocksize (chunk.getD i []) (target.getD i []) := by
      simp [channelFade]
    rw [hcf, fadeOut,
      fadeOutFrom_getD s.blocksize _ s.blocksize _ j hj (hsrcl ▸ hj) (htgtl ▸ hj)]
    simp [fadeGain, mul_div_assoc]
  · -- fade in: rolling = true, previously = false
    have hcf : channelFade s.blocksize true false (chunk.getD i []) (target.getD i [])
        = fadeIn s.blocksize (chunk.getD i []) (target.getD i []) := by
      simp [channelFade]
    rw [hcf, fadeIn, fadeInFrom_getD s.blocksize _ 1 _ j (hsrcl ▸ hj) (htgtl ▸ hj)]
    simp only [fadeGain, Bool.not_false, Bool.and_self, if_true, ite_true]
    push_cast
    ring
  · -- steady rolling: straight copy
    have hcf : channelFade s.blocksize true true (chunk.getD i []) (target.getD i [])
        = copySlice (chunk.getD i []) (target.getD i []) := by
      simp [channelFade]
    rw [hcf, copySlice, if_pos (hsrcl.trans htgtl.symm)]
    simp [fadeGain]

theorem getData_crossfade_formula_witness :
    (((stateFadeInDemo.getData [[0, 0]] true).target.getD 0 []).getD 1 0)
      = (([[3, 5]] : Chunk).getD 0 []).getD 1 0 * fadeGain true false 2 1 :=
  getData_crossfade_formula stateFadeInDemo [[0, 0]] true [[3, 5]] [] (by decide) rfl rfl
    (Or.inl rfl) (by decide) (by decide) (by decide) 0 1 (by decide) (by decide)

/-- C7: in a reader-thread fill step, the file operations issued for each
active entry are: for an entry beginning at or after `current_frame`, a
seek of that entry's file to frame 0 and a fill at target offset
`begin - current_frame`; for an entry that began strictly before
`current_frame`, an explicit file seek (to `current_frame - begin`) only
when `current_frame = seek_frame` (first block after a seek), and
otherwise just a fill at offset 0 relying on the file's advanced cursor. -/
theorem readerStep_entry_file_ops (playlist : List PlaylistEntry) (bufferBlocks : ℕ)
    (sys : SysState) (hsc : sys.fs.seekChan = none)
    (hroom : sys.fs.buffer.length < bufferBlocks) :
    (readerStep playlist bufferBlocks sys).ops
        = blockOps playlist sys.rdr.currentFrame sys.rdr.seekFrame sys.fs.blocksize
      ∧ ∀ e ∈ activeEntries sys.rdr.currentFrame
          (sys.rdr.currentFrame + sys.fs.blocksize) playlist,
        (sys.rdr.currentFrame ≤ e.begin →
          entryOps sys.rdr.currentFrame sys.rdr.seekFrame e
            = [FileOp.seek e.idx 0, FileOp.fill e.idx (e.begin - sys.rdr.currentFrame)])
        ∧ (e.begin < sys.rdr.currentFrame →
          entryOps sys.rdr.currentFrame sys.rdr.seekFrame e
            = if sys.rdr.currentFrame = sys.rdr.seekFrame
              then [FileOp.seek e.idx (sys.rdr.currentFrame - e.begin), FileOp.fill e.idx 0]
              else [FileOp.fill e.idx 0]) := by
  constructor
  · simp only [readerStep, hsc]
    rw [if_pos hroom]
    split
    · split
      · split <;> rfl
      · rfl
    · rfl
  · intro e _he
    refine ⟨fun hge => ?_, fun hlt => ?_⟩
    · have h : ¬ e.begin < sys.rdr.currentFrame := not_lt.mpr hge
      simp [entryOps, h]
    · simp only [entryOps, if_pos hlt]
      split <;> simp

theorem readerStep_entry_file_ops_witness :
    (readerStep [⟨0, 0, 10⟩, ⟨1, 6, 4⟩] 2 (SysState.init 4 1)).ops
      = blockOps [⟨0, 0, 10⟩, ⟨1, 6, 4⟩] 0 0 4 :=
  (readerStep_entry_file_ops [⟨0, 0, 10⟩, ⟨1, 6, 4⟩] 2 (SysState.init 4 1) rfl
    (by decide)).1

/-- C8: the reader thread sends a consumer on the ready channel only when,
after the fill, `current_frame - seek_frame ≥ buffer_blocks * blocksize`
holds; the message is tagged with the `seek_frame` of the current
buffering cycle; and after the send the thread holds no consumer — and
sends nothing further — until it next receives one via the seek-request
channel. -/
theorem readerStep_handoff_protocol (playlist : List PlaylistEntry) (bufferBlocks : ℕ)
    (sys : SysState) :
    (∀ tag, (readerStep playlist bufferBlocks sys).sent = some tag →
        bufferBlocks * sys.fs.blocksize
            ≤ (readerStep playlist bufferBlocks sys).sys.rdr.currentFrame
              - (readerStep playlist bufferBlocks sys).sys.rdr.seekFrame
          ∧ tag = (readerStep playlist bufferBlocks sys).sys.rdr.seekFrame
          ∧ (readerStep playlist bufferBlocks sys).sys.rdr.dataConsumer = false)
      ∧ (sys.rdr.dataConsumer = false → sys.fs.seekChan = none →
          (readerStep playlist bufferBlocks sys).sys.rdr.dataConsumer = false
            ∧ (readerStep playlist bufferBlocks sys).sent = none) := by
  constructor
  · intro tag h
    cases hsc : sys.fs.seekChan with
    | none =>
      by_cases h1 : sys.fs.buffer.length < bufferBlocks
      · by_cases h2 : bufferBlocks * sys.fs.blocksize
            ≤ sys.rdr.currentFrame + sys.fs.blocksize - sys.rdr.seekFrame
        · cases hdc : sys.rdr.dataConsumer with
          | false => simp [readerStep, hsc, h1, h2, hdc] at h
          | true =>
            cases hrc : sys.fs.readyChan with
            | none =>
              simp only [readerStep, hsc, h1, h2, hdc, hrc] at h ⊢
              simp_all
            | some r0 => simp [readerStep, hsc, h1, h2, hdc, hrc] at h
        · simp [readerStep, hsc, h1, h2] at h
      · simp [readerStep, hsc, h1] at h
    | some frame =>
      by_cases h1 : 0 < bufferBlocks
      · by_cases h2 : bufferBlocks * sys.fs.blocksize ≤ sys.fs.blocksize
        · cases hrc : sys.fs.readyChan with
          | none =>
            simp only [readerStep, hsc, h1, h2, hrc] at h ⊢
            simp_all
          | some r0 => simp [readerStep, hsc, h1, h2, hrc] at h
        · simp [readerStep, hsc, h1, h2] at h
      · simp [readerStep, hsc, h1] at h
  · intro hdc hsc
    by_cases h1 : sys.fs.buffer.length < bufferBlocks
    · by_cases h2 : bufferBlocks * sys.fs.blocksize
          ≤ sys.rdr.currentFrame + sys.fs.blocksize - sys.rdr.seekFrame
      · simp [readerStep, hsc, h1, h2, hdc]
      · simp [readerStep, hsc, h1, h2, hdc]
    · simp [readerStep, hsc, h1, hdc]

theorem readerStep_handoff_protocol_witness :
    1 * 1 ≤ (readerStep [] 1 (SysState.init 1 1)).sys.rdr.currentFrame
        - (readerStep [] 1 (SysState.init 1 1)).sys.rdr.seekFrame
      ∧ 0 = (readerStep [] 1 (SysState.init 1 1)).sys.rdr.seekFrame
      ∧ (readerStep [] 1 (SysState.init 1 1)).sys.rdr.dataConsumer = false :=
  (readerStep_handoff_protocol [] 1 (SysState.init 1 1)).1 0 (by decide)

/-! ### Consumer-endpoint token accounting (for C9) -/

theorem tokens_eq (sys : SysState) :
    tokens sys = tokensF sys.fs + (if sys.rdr.dataConsumer then 1 else 0) := rfl

theorem pushSeekRequest_tokensF (s : FileStreamer) (f : ℕ) (h : tokensF s ≤ 1) :
    tokensF (pushSeekRequest s f).fs = tokensF s
      ∧ (pushSeekRequest s f).panicked = false := by
  cases hdc : s.dataConsumer <;> cases hsc : s.seekChan <;>
      cases hrc : s.readyChan <;>
    simp_all [pushSeekRequest, tokensF]

theorem seekSlow_tokensF (s : FileStreamer) (f : ℕ) (h : tokensF s ≤ 1) :
    tokensF (seekSlow s f).fs = tokensF s ∧ (seekSlow s f).panicked = false := by
  cases hp : s.previouslyRolling <;> cases hdc : s.dataConsumer <;>
      cases hrc : s.readyChan <;> cases hsc : s.seekChan <;>
    simp_all [seekSlow, pushSeekRequest, tokensF] <;>
      split_ifs <;> simp_all

theorem seek_tokensF (s : FileStreamer) (f : ℕ) (h : tokensF s ≤ 1) :
    tokensF (s.seek f).fs = tokensF s ∧ (s.seek f).panicked = false := by
  unfold FileStreamer.seek
  cases hst : s.state with
  | playing g =>
    by_cases hgf : g = f
    · simp [hgf]
    · simp only [hgf, if_false]
      exact seekSlow_tokensF { s with state := .seeking f } f h
  | seeking g => exact seekSlow_tokensF { s with state := .seeking f } f h

theorem tokensF_congr (s t : FileStreamer) (h1 : s.dataConsumer = t.dataConsumer)
    (h2 : s.readyChan = t.readyChan) (h3 : s.seekChan = t.seekChan) :
    tokensF s = tokensF t := by
  simp [tokensF, h1, h2, h3]

theorem finishGetData_tokensF (s : FileStreamer) (out : List (List ℚ)) (rolling : Bool)
    (h : tokensF s ≤ 1) :
    tokensF (finishGetData s out rolling).fs = tokensF s
      ∧ (finishGetData s out rolling).panicked = false := by
  unfold finishGetData
  cases hst : s.state with
  | playing g =>
    simp only [hst]
    exact ⟨tokensF_congr _ _ rfl rfl rfl, by trivial⟩
  | seeking g =>
    simp only [hst]
    cases hr : rolling with
    | true =>
      rw [if_pos rfl]
      exact ⟨tokensF_congr _ _ rfl rfl rfl, by trivial⟩
    | false =>
      rw [if_neg (by simp)]
      obtain ⟨h1, h2⟩ := seek_tokensF
        { s with previouslyRolling := false, state := StState.seeking g } g
        ((tokensF_congr _ s rfl rfl rfl).le.trans h)
      exact ⟨h1.trans (tokensF_congr _ _ rfl rfl rfl), h2⟩

theorem getData_tokensF (s : FileStreamer) (target : List (List ℚ)) (rolling : Bool)
    (h : tokensF s ≤ 1) :
    tokensF (s.getData target rolling).fs = tokensF s
      ∧ (s.getData target rolling).panicked = false := by
  unfold FileStreamer.getData
  by_cases h1 : (!rolling && !s.previouslyRolling) = true
  · rw [if_pos h1]
    exact finishGetData_tokensF s _ rolling h
  · rw [if_neg h1]
    cases hdc : s.dataConsumer with
    | false =>
      rw [if_neg (by simp)]
      exact ⟨rfl, rfl⟩
    | true =>
      rw [if_pos rfl]
      cases hbuf : s.buffer with
      | nil => exact ⟨rfl, rfl⟩
      | cons chunk rest =>
        cases hst : s.state with
        | playing g =>
          simp only [hst]
          have heq : tokensF
              { s with
                  buffer := rest
                  dataConsumer := true
                  state := StState.playing (g + s.blocksize) } = tokensF s :=
            tokensF_congr _ _ hdc.symm rfl rfl
          obtain ⟨h1', h2'⟩ := finishGetData_tokensF
            { s with
                buffer := rest
                dataConsumer := true
                state := StState.playing (g + s.blocksize) }
            (zipChannels (channelFade s.blocksize rolling s.previouslyRolling) chunk target)
            rolling (heq.le.trans h)
          exact ⟨h1'.trans heq, h2'⟩
        | seeking g =>
          simp only [hst]
          have heq : tokensF
              { s with
                  buffer := rest
                  dataConsumer := true
                  state := StState.seeking g } = tokensF s :=
            tokensF_congr _ _ hdc.symm rfl rfl
          obtain ⟨h1', h2'⟩ := finishGetData_tokensF
            { s with
                buffer := rest
                dataConsumer := true
                state := StState.seeking g }
            (zipChannels (channelFade s.blocksize rolling s.previouslyRolling) chunk target)
            rolling (heq.le.trans h)
          exact ⟨h1'.trans heq, h2'⟩

theorem readerStep_tokens (playlist : List PlaylistEntry) (bufferBlocks : ℕ)
    (sys : SysState) (h : tokens sys = 1) :
    tokens (readerStep playlist bufferBlocks sys).sys = 1
      ∧ (readerStep playlist bufferBlocks sys).panicked = false := by
  cases hsc : sys.fs.seekChan <;>
    cases hfd : sys.fs.dataConsumer <;>
      cases hrc : sys.fs.readyChan <;>
        cases hdc : sys.rdr.dataConsumer <;>
          simp_all [readerStep, tokens] <;>
            split_ifs <;> simp_all

theorem sysStep_tokens (playlist : List PlaylistEntry) (bufferBlocks : ℕ) (sys : SysState)
    (a : SysAction) (h : tokens sys = 1) :
    tokens (sysStep playlist bufferBlocks sys a).1 = 1
      ∧ (sysStep playlist bufferBlocks sys a).2 = false := by
  have hf : tokensF sys.fs ≤ 1 := by
    cases hdc : sys.rdr.dataConsumer <;> rw [tokens_eq, hdc] at h <;> simp at h <;> omega
  cases a with
  | seek f =>
    obtain ⟨he, hp⟩ := seek_tokensF sys.fs f hf
    refine ⟨?_, hp⟩
    show tokens ⟨(sys.fs.seek f).fs, sys.rdr⟩ = 1
    rw [tokens_eq] at h ⊢
    simpa [he] using h
  | getData target rolling =>
    obtain ⟨he, hp⟩ := getData_tokensF sys.fs target rolling hf
    refine ⟨?_, hp⟩
    show tokens ⟨(sys.fs.getData target rolling).fs, sys.rdr⟩ = 1
    rw [tokens_eq] at h ⊢
    simpa [he] using h
  | reader => exact readerStep_tokens playlist bufferBlocks sys h

theorem reachable_tokens (playlist : List PlaylistEntry) (bufferBlocks blocksize channels : ℕ)
    (sys : SysState) (h : Reachable playlist bufferBlocks blocksize channels sys) :
    tokens sys = 1 := by
  induction h with
  | init => rfl
  | step a _hprev ih => exact (sysStep_tokens _ _ _ a ih).1

/-- C9: in every reachable interleaving of facade and reader-thread
steps, the block queue's consumer endpoint sits in exactly one of the
four places (facade, ready channel, seek-request channel, reader), so
each single-slot handoff channel holds at most one in-flight message and
no step's channel-push `unwrap` ever panics. -/
theorem reachable_channel_pushes_never_panic (playlist : List PlaylistEntry)
    (bufferBlocks blocksize channels : ℕ) (sys : SysState)
    (h : Reachable playlist bufferBlocks blocksize channels sys) :
    tokens sys = 1 ∧ ∀ a, (sysStep playlist bufferBlocks sys a).2 = false := by
  have ht := reachable_tokens playlist bufferBlocks blocksize channels sys h
  exact ⟨ht, fun a => (sysStep_tokens playlist bufferBlocks sys a ht).2⟩

theorem reachable_channel_pushes_never_panic_witness :
    tokens (SysState.init 4 1) = 1 :=
  (reachable_channel_pushes_never_panic [] 2 4 1 (SysState.init 4 1) Reachable.init).1

end Streamer
